import Mathlib

/-!
Verification development for the zero-knowledge file-sharing repository
(browser-side AES-GCM encryption, encrypted-blob upload/download lifecycle,
rate limiting and audit logging).

The definitions below are a shallow embedding of the TypeScript sources:
  * `toBase64Url` / `fromBase64Url`      — frontend crypto module (base64url codec)
  * `EncryptedFile`, `LogEntry`, routes  — backend models and Express routes
  * `cleanupExpiredFiles`                — backend cleanup script
ISO-8601 timestamp strings are modelled as `Nat` milliseconds (JavaScript
`Date` comparison on such strings is exactly numeric comparison of their
epoch values, and SQLite lexicographic comparison of ISO strings agrees
with chronological order).  Byte buffers are `List Nat` with entries < 256.
-/

/-! ## Base64 / base64url codec (frontend crypto module)

`btoa`/`atob` are browser built-ins (standard base64 with `=` padding over
latin-1 code points); they are embedded here with their standard semantics.
`toBase64Url` and `fromBase64Url` are translated from the source: encode =
`btoa` then replace `+`→`-`, `/`→`_` and strip `=`; decode = replace back,
re-pad to a multiple of four, then `atob`. -/

def b64Alphabet : List Char :=
  ['A', 'B', 'C', 'D', 'E', 'F', 'G', 'H', 'I', 'J', 'K', 'L', 'M',
   'N', 'O', 'P', 'Q', 'R', 'S', 'T', 'U', 'V', 'W', 'X', 'Y', 'Z',
   'a', 'b', 'c', 'd', 'e', 'f', 'g', 'h', 'i', 'j', 'k', 'l', 'm',
   'n', 'o', 'p', 'q', 'r', 's', 't', 'u', 'v', 'w', 'x', 'y', 'z',
   '0', '1', '2', '3', '4', '5', '6', '7', '8', '9', '+', '/']

def encB64 (n : Nat) : Char := b64Alphabet.getD n 'A'

def decB64 (c : Char) : Option Nat := b64Alphabet.findIdx? (fun x => x == c)

/-- One step of standard base64 encoding: groups of three bytes become four
alphabet characters; a final group of one or two bytes is padded with `=`. -/
def btoaChars : List Nat → List Char
  | [] => []
  | [a] => [encB64 (a / 4), encB64 (a % 4 * 16), '=', '=']
  | [a, b] => [encB64 (a / 4), encB64 (a % 4 * 16 + b / 16), encB64 (b % 16 * 4), '=']
  | a :: b :: c :: rest =>
      encB64 (a / 4) :: encB64 (a % 4 * 16 + b / 16) ::
      encB64 (b % 16 * 4 + c / 64) :: encB64 (c % 64) :: btoaChars rest

/-- Browser `btoa` on a byte string (each byte a latin-1 code point). -/
def btoa (bytes : List Nat) : String := String.mk (btoaChars bytes)

/-- Decode four non-pad base64 characters into three bytes. -/
def dec4 (c1 c2 c3 c4 : Char) : Option (List Nat) :=
  match decB64 c1, decB64 c2, decB64 c3, decB64 c4 with
  | some d1, some d2, some d3, some d4 =>
      some [d1 * 4 + d2 / 16, d2 % 16 * 16 + d3 / 4, d3 % 4 * 64 + d4]
  | _, _, _, _ => none

/-- Decode the final base64 group, which may carry one or two `=` pads. -/
def decFinal (c1 c2 c3 c4 : Char) : Option (List Nat) :=
  if c3 = '=' ∧ c4 = '=' then
    match decB64 c1, decB64 c2 with
    | some d1, some d2 => some [d1 * 4 + d2 / 16]
    | _, _ => none
  else if c4 = '=' then
    match decB64 c1, decB64 c2, decB64 c3 with
    | some d1, some d2, some d3 => some [d1 * 4 + d2 / 16, d2 % 16 * 16 + d3 / 4]
    | _, _, _ => none
  else dec4 c1 c2 c3 c4

/-- Browser `atob`: decode groups of four characters, `=` pads only in the
final group; `none` models the `InvalidCharacterError` it throws. -/
def atobChars : List Char → Option (List Nat)
  | [] => some []
  | c1 :: c2 :: c3 :: c4 :: rest =>
      match rest with
      | [] => decFinal c1 c2 c3 c4
      | _ =>
          match dec4 c1 c2 c3 c4, atobChars rest with
          | some bs, some tail => some (bs ++ tail)
          | _, _ => none
  | _ => none

/-- The `+`→`-` and `/`→`_` character replacement of `toBase64Url`. -/
def urlEncChar (c : Char) : Char := if c = '+' then '-' else if c = '/' then '_' else c

/-- The `-`→`+` and `_`→`/` character replacement of `fromBase64Url`. -/
def urlDecChar (c : Char) : Char := if c = '-' then '+' else if c = '_' then '/' else c

/-- `toBase64Url` from the frontend crypto module: `btoa`, then make the
result URL-safe and strip padding. -/
def toBase64Url (bytes : List Nat) : String :=
  String.mk (((btoaChars bytes).map urlEncChar).filter (fun c => !(c == '=')))

/-- The `while (base64.length % 4 !== 0) base64 += '='` re-padding loop of
`fromBase64Url`. -/
def padBase64 (s : List Char) : List Char :=
  if s.length % 4 = 0 then s else padBase64 (s ++ ['='])
termination_by (4 - s.length % 4) % 4
decreasing_by simp [List.length_append]; omega

/-- `fromBase64Url` from the frontend crypto module: undo the URL-safe
replacements, re-pad, then `atob`. -/
def fromBase64Url (s : String) : Option (List Nat) :=
  atobChars (padBase64 (s.toList.map urlDecChar))

/-! ## Backend data model

`EncryptedFile` mirrors the `files` table row (backend File model); the
`files` table declares `id` as PRIMARY KEY.  `LogEntry` mirrors a `logs`
row (Log model); the structured `extra` JSON payload is not modelled.
The on-disk blob store is an association list from path to byte content. -/

structure EncryptedFile where
  id : String
  path : String
  iv : String
  ownerId : String
  filename : String
  mimetype : String
  filesize : Nat
  createdAt : Nat
  expiryTime : Nat
  downloadCount : Nat
deriving Repr, DecidableEq

inductive EventType where
  | DOWNLOAD_OK | NOT_FOUND | EXPIRED | RATE_LIMITED | AUTH_FAILED | UPLOAD_OK | UPLOAD_FAILED
deriving Repr, DecidableEq

structure LogEntry where
  timestamp : Nat
  ip : String
  userAgent : String
  fileId : Option String
  eventType : EventType
deriving Repr, DecidableEq

def mkLog (ts : Nat) (ip ua : String) (fid : Option String) (ev : EventType) : LogEntry :=
  { timestamp := ts, ip := ip, userAgent := ua, fileId := fid, eventType := ev }

/-- Disk blob store: `fs.writeFile` (overwrite), `fs.readFile`/`fs.access`
(lookup), `fs.unlinkSync` (remove; removing an absent path is the tolerated
"already gone" case, a no-op here where the source catches and logs). -/
def diskWrite (disk : List (String × List Nat)) (p : String) (content : List Nat) :
    List (String × List Nat) :=
  disk.filter (fun e => !(e.1 == p)) ++ [(p, content)]

def diskRead (disk : List (String × List Nat)) (p : String) : Option (List Nat) :=
  (disk.find? (fun e => e.1 == p)).map (fun e => e.2)

def diskErase (disk : List (String × List Nat)) (p : String) : List (String × List Nat) :=
  disk.filter (fun e => !(e.1 == p))

/-- `SELECT * FROM files WHERE id = ?` via `dbGet` (first matching row). -/
def dbGetFileById (files : List EncryptedFile) (fileId : String) : Option EncryptedFile :=
  files.find? (fun f => f.id == fileId)

/-- `UPDATE files SET downloadCount = downloadCount + 1 WHERE id = ?`. -/
def incrementDownloadCount (files : List EncryptedFile) (fileId : String) :
    List EncryptedFile :=
  files.map (fun f => if f.id == fileId then { f with downloadCount := f.downloadCount + 1 } else f)

/-- The UUID-shape check `/^[0-9a-f]{8}-[0-9a-f]{4}-[0-9a-f]{4}-[0-9a-f]{4}-[0-9a-f]{12}$/i`
used by the download routes. -/
def isHexDigit (c : Char) : Bool :=
  ('0' ≤ c && c ≤ '9') || ('a' ≤ c && c ≤ 'f') || ('A' ≤ c && c ≤ 'F')

def isValidUUID (s : String) : Bool :=
  let cs := s.toList
  cs.length == 36 &&
    (List.range 36).all (fun i =>
      if i == 8 || i == 13 || i == 18 || i == 23 then cs.getD i ' ' == '-'
      else isHexDigit (cs.getD i ' '))

/-! ## Rate limiting (express-rate-limit middleware)

The three limiter instances configured in the middleware share one window
length; ceilings are `RATE_LIMIT_MAX` for downloads, its floor half for
uploads, and 5 for login.  The library itself is a fixed-window counter
keyed by the client IP: each request increments the key's hit count
(resetting when the window has elapsed) and is rejected with 429 when the
count exceeds the ceiling, without invoking the route handler. -/

def RATE_LIMIT_WINDOW_MS : Nat := 900000
def RATE_LIMIT_MAX : Nat := 100

structure RateLimitEntry where
  key : String
  windowStart : Nat
  hits : Nat
deriving Repr, DecidableEq

abbrev RateLimitState := List RateLimitEntry

/-- Record one hit for `key`, returning the hit count within the current
window together with the updated counter store. -/
def rateLimitHit (st : RateLimitState) (key : String) (now windowMs : Nat) :
    Nat × RateLimitState :=
  match st.find? (fun e => e.key == key) with
  | none => (1, st ++ [{ key := key, windowStart := now, hits := 1 }])
  | some e =>
      if e.windowStart + windowMs ≤ now then
        (1, st.filter (fun x => !(x.key == key)) ++ [{ key := key, windowStart := now, hits := 1 }])
      else
        (e.hits + 1, st.map (fun x => if x.key == key then { x with hits := x.hits + 1 } else x))

/-- Whether this request is admitted by a limiter with ceiling `mx`. -/
def rateLimitAllows (st : RateLimitState) (key : String) (now windowMs mx : Nat) : Bool :=
  (rateLimitHit st key now windowMs).1 ≤ mx

/-- Combined server-side mutable state: the `files` table, the blob
directory, the append-only `logs` table and the two limiter stores of the
file endpoints. -/
structure ServerState where
  files : List EncryptedFile
  disk : List (String × List Nat)
  logs : List LogEntry
  rlDownload : RateLimitState
  rlUpload : RateLimitState
deriving Repr, DecidableEq

/-! ## File routes (backend)

Each route is a function from the server state and request inputs to a
result and next state.  The authenticated principal produced by the JWT
middleware is an `Option String` (`none` = missing/invalid token).  The
random `uuidv4()` file id of the upload route is passed as an input. -/

/-- `GET /api/file/:fileId/metadata` — public, no rate limiter.
Responds 200 with `exists = true` and the `expired` flag; 400 on a
malformed id; 404 (audited NOT_FOUND) when no row matches. -/
structure FileMetadataResponse where
  filename : String
  mimetype : String
  filesize : Nat
  createdAt : Nat
  expiryTime : Nat
  downloadCount : Nat
  existsFlag : Bool
  expired : Bool
deriving Repr, DecidableEq

inductive MetaResult where
  | invalidId
  | notFound
  | ok (resp : FileMetadataResponse)
deriving Repr, DecidableEq

def metadataRoute (st : ServerState) (fileId ip ua : String) (now : Nat) :
    MetaResult × ServerState :=
  if !(isValidUUID fileId) then (.invalidId, st)
  else
    match dbGetFileById st.files fileId with
    | none => (.notFound, { st with logs := st.logs ++ [mkLog now ip ua (some fileId) .NOT_FOUND] })
    | some f =>
        (.ok { filename := f.filename, mimetype := f.mimetype, filesize := f.filesize,
               createdAt := f.createdAt, expiryTime := f.expiryTime,
               downloadCount := f.downloadCount, existsFlag := true,
               expired := decide (f.expiryTime < now) }, st)

/-- `GET /api/file/:fileId/blob` — public, gated by the download limiter.
HTTP statuses: rateLimited 429, invalidId 400, notFound 404 (audited),
expired 410 (audited), dataNotFound 404, ok 200 (audited; the download
count is incremented). -/
structure FileBlobResponse where
  ciphertext : String
  iv : String
  filename : String
  mimetype : String
  filesize : Nat
deriving Repr, DecidableEq

inductive BlobResult where
  | rateLimited
  | invalidId
  | notFound
  | expired
  | dataNotFound
  | ok (resp : FileBlobResponse)
deriving Repr, DecidableEq

def blobRoute (st : ServerState) (fileId ip ua : String) (now windowMs mx : Nat) :
    BlobResult × ServerState :=
  let hl := rateLimitHit st.rlDownload ip now windowMs
  let st1 := { st with rlDownload := hl.2 }
  if mx < hl.1 then (.rateLimited, st1)
  else if !(isValidUUID fileId) then (.invalidId, st1)
  else
    match dbGetFileById st1.files fileId with
    | none => (.notFound, { st1 with logs := st1.logs ++ [mkLog now ip ua (some fileId) .NOT_FOUND] })
    | some file =>
        if file.expiryTime < now then
          (.expired, { st1 with logs := st1.logs ++ [mkLog now ip ua (some fileId) .EXPIRED] })
        else
          match diskRead st1.disk file.path with
          | none => (.dataNotFound, st1)
          | some content =>
              (.ok { ciphertext := btoa content, iv := file.iv, filename := file.filename,
                     mimetype := file.mimetype, filesize := file.filesize },
               { st1 with
                   files := incrementDownloadCount st1.files fileId,
                   logs := st1.logs ++ [mkLog now ip ua (some fileId) .DOWNLOAD_OK] })

/-- `POST /api/upload` — middleware order is authentication, then the
upload limiter (ceiling `mx / 2`), then the handler.  The body's
`expiresIn` is `some h` when the field is present as a (truthy) numeric
string with value `h`, `none` when absent.  Bytes are written to disk
before the row is inserted; a PRIMARY KEY collision on `fileId` makes the
insert throw, which the handler catches (leaving the orphan bytes) and
logs as UPLOAD_FAILED. -/
def DEFAULT_EXPIRY_HOURS : Nat := 24

def HOUR_MS : Nat := 3600000

inductive UploadResult where
  | noAuth
  | rateLimited
  | noFile
  | missingMeta
  | invalidIV
  | dbError
  | ok (fileId : String) (expiryTime : Nat)
deriving Repr, DecidableEq

def uploadRoute (st : ServerState) (user : Option String) (fileContent : Option (List Nat))
    (iv filename mimetype : String) (expiresIn : Option Nat) (fileId ip ua : String)
    (now windowMs mx : Nat) : UploadResult × ServerState :=
  match user with
  | none => (.noAuth, st)
  | some u =>
      let hl := rateLimitHit st.rlUpload ip now windowMs
      let st1 := { st with rlUpload := hl.2 }
      if mx / 2 < hl.1 then (.rateLimited, st1)
      else
        match fileContent with
        | none => (.noFile, { st1 with logs := st1.logs ++ [mkLog now ip ua none .UPLOAD_FAILED] })
        | some content =>
            if iv = "" ∨ filename = "" ∨ mimetype = "" then
              (.missingMeta,
               { st1 with logs := st1.logs ++ [mkLog now ip ua none .UPLOAD_FAILED] })
            else if iv.length = 0 then
              -- unreachable after the emptiness check; kept to mirror the source
              (.invalidIV, st1)
            else
              let hoursUntilExpiry := match expiresIn with
                | some h => h
                | none => DEFAULT_EXPIRY_HOURS
              let createdAt := now
              let expiryTime := now + hoursUntilExpiry * HOUR_MS
              let filePath := "uploads/" ++ fileId ++ ".bin"
              let disk1 := diskWrite st1.disk filePath content
              if st1.files.any (fun f => f.id == fileId) then
                (.dbError,
                 { st1 with disk := disk1,
                            logs := st1.logs ++ [mkLog now ip ua none .UPLOAD_FAILED] })
              else
                (.ok fileId expiryTime,
                 { st1 with
                     disk := disk1,
                     files := st1.files ++
                       [{ id := fileId, path := filePath, iv := iv, ownerId := u,
                          filename := filename, mimetype := mimetype,
                          filesize := content.length, createdAt := createdAt,
                          expiryTime := expiryTime, downloadCount := 0 }],
                     logs := st1.logs ++ [mkLog now ip ua (some fileId) .UPLOAD_OK] })

/-- `DELETE /api/myfiles/:fileId` — authenticated; looks the row up with
`WHERE id = ? AND ownerId = ?`, so a missing row and a row owned by
someone else take the same 404 branch.  On success the disk bytes are
unlinked (failure tolerated) and the row deleted.  No audit logging. -/
inductive DeleteResult where
  | noAuth
  | notFoundOrNotOwner
  | ok
deriving Repr, DecidableEq

def deleteStatus : DeleteResult → Nat
  | .noAuth => 401
  | .notFoundOrNotOwner => 404
  | .ok => 200

def deleteRoute (st : ServerState) (user : Option String) (fileId : String) :
    DeleteResult × ServerState :=
  match user with
  | none => (.noAuth, st)
  | some u =>
      match st.files.find? (fun f => f.id == fileId && f.ownerId == u) with
      | none => (.notFoundOrNotOwner, st)
      | some file =>
          (.ok, { st with
                    disk := diskErase st.disk file.path,
                    files := st.files.filter (fun f => !(f.id == fileId)) })

/-- `GET /api/myfiles` — authenticated listing, `ORDER BY createdAt DESC`
(modelled by an insertion sort).  Read-only. -/
structure MyFileInfo where
  id : String
  filename : String
  mimetype : String
  filesize : Nat
  createdAt : Nat
  expiryTime : Nat
  downloadCount : Nat
  expired : Bool
deriving Repr, DecidableEq

def insertByCreatedAtDesc (f : EncryptedFile) : List EncryptedFile → List EncryptedFile
  | [] => [f]
  | g :: gs => if g.createdAt ≤ f.createdAt then f :: g :: gs else g :: insertByCreatedAtDesc f gs

def sortByCreatedAtDesc (l : List EncryptedFile) : List EncryptedFile :=
  l.foldr insertByCreatedAtDesc []

inductive ListResult where
  | noAuth
  | ok (files : List MyFileInfo)
deriving Repr, DecidableEq

def listRoute (st : ServerState) (user : Option String) (now : Nat) :
    ListResult × ServerState :=
  match user with
  | none => (.noAuth, st)
  | some u =>
      let owned := sortByCreatedAtDesc (st.files.filter (fun f => f.ownerId == u))
      (.ok (owned.map (fun f =>
        { id := f.id, filename := f.filename, mimetype := f.mimetype,
          filesize := f.filesize, createdAt := f.createdAt, expiryTime := f.expiryTime,
          downloadCount := f.downloadCount, expired := decide (f.expiryTime < now) })), st)

/-! ## Cleanup script (`cleanupExpiredFiles`)

`SELECT * FROM files WHERE expiryTime < ?` with the current time, then per
expired row: unlink the disk bytes (a missing file is only a warning),
delete the row, and count it; a per-row failure is caught and the loop
continues.  Returns the updated table, disk, and the deleted count. -/

def cleanupLoop :
    List EncryptedFile → List EncryptedFile → List (String × List Nat) → Nat →
    List EncryptedFile × List (String × List Nat) × Nat
  | [], files, disk, count => (files, disk, count)
  | f :: rest, files, disk, count =>
      cleanupLoop rest (files.filter (fun g => !(g.id == f.id))) (diskErase disk f.path) (count + 1)

def cleanupExpiredFiles (files : List EncryptedFile) (disk : List (String × List Nat))
    (now : Nat) : List EncryptedFile × List (String × List Nat) × Nat :=
  cleanupLoop (files.filter (fun f => decide (f.expiryTime < now))) files disk 0

/-! ## Client upload flow (frontend)

`setupUploadListeners` + `uploadFile`: generate key and IV, encrypt,
upload ciphertext with metadata, then build the share link with the
base64url-encoded key in the URL fragment.  WebCrypto AES-GCM runs outside
the repository, so the encryption primitive is an abstract function
parameter `encryptFn` (key bytes → IV bytes → plaintext → ciphertext). -/

/-- The multipart form body built by `uploadFile`: exactly the fields
`file` (ciphertext blob), `iv` (base64), `filename`, `mimetype`,
`filesize`, and optionally `expiresIn`.  There is no key field. -/
structure UploadBody where
  file : List Nat
  iv : String
  filename : String
  mimetype : String
  filesize : Nat
  expiresIn : Option Nat
deriving Repr, DecidableEq

/-- The upload-button flow: returns the request body sent to the server
and the generated share link.  `setupUploadListeners` passes no
`expiresIn`, stores the encoded key client-side only, and places it in the
link after `#`. -/
def clientUpload (encryptFn : List Nat → List Nat → List Nat → List Nat)
    (keyBytes iv fileData : List Nat) (name ftype : String)
    (origin fileId : String) : UploadBody × String :=
  let ciphertext := encryptFn keyBytes iv fileData
  let body : UploadBody :=
    { file := ciphertext, iv := btoa iv, filename := name, mimetype := ftype,
      filesize := fileData.length, expiresIn := none }
  let keyBase64Url := toBase64Url keyBytes
  (body, origin ++ "/file/" ++ fileId ++ "#" ++ keyBase64Url)

/-- Everything the server computes from one upload followed by a metadata
fetch and a blob fetch of the same id: the three responses and the final
state.  A function of the request body and server-side inputs only. -/
def serverUploadAndRead (body : UploadBody) (ownerId fileId ip ua : String)
    (st : ServerState) (now now2 windowMs mx : Nat) :
    UploadResult × MetaResult × BlobResult × ServerState :=
  let u := uploadRoute st (some ownerId) (some body.file) body.iv body.filename
    body.mimetype body.expiresIn fileId ip ua now windowMs mx
  let m := metadataRoute u.2 fileId ip ua now2
  let b := blobRoute m.2 fileId ip ua now2 windowMs mx
  (u.1, m.1, b.1, b.2)

/-! ## Base64url codec: correctness (claim C2) -/

theorem decB64_encB64 : ∀ d, d < 64 → decB64 (encB64 d) = some d := by decide

theorem encB64_mem (d : Nat) : encB64 d ∈ b64Alphabet := by
  rcases Nat.lt_or_ge d 64 with h | h
  · exact (by decide : ∀ d, d < 64 → encB64 d ∈ b64Alphabet) d h
  · have hlen : b64Alphabet.length = 64 := by rfl
    unfold encB64
    rw [List.getD_eq_default]
    · decide
    · omega

theorem alphabet_ne_pad : ∀ c ∈ b64Alphabet, c ≠ '=' := by decide

theorem encB64_ne_pad (d : Nat) : encB64 d ≠ '=' :=
  alphabet_ne_pad _ (encB64_mem d)

theorem urlRound_alphabet : ∀ c ∈ b64Alphabet, urlDecChar (urlEncChar c) = c := by decide

theorem urlEnc_alphabet_ne : ∀ c ∈ b64Alphabet,
    urlEncChar c ≠ '+' ∧ urlEncChar c ≠ '/' ∧ urlEncChar c ≠ '=' ∧ urlEncChar c ≠ '#' := by
  decide

theorem padBase64_eq (s : List Char) :
    padBase64 s = s ++ List.replicate ((4 - s.length % 4) % 4) '=' := by
  induction s using padBase64.induct with
  | case1 s h => rw [padBase64, if_pos h, h]; simp
  | case2 s h ih =>
      rw [padBase64, if_neg h, ih]
      have hlen : (s ++ ['=']).length = s.length + 1 := by simp
      rw [hlen, List.append_assoc]
      congr 1
      have h4 : (4 - (s.length + 1) % 4) % 4 + 1 = (4 - s.length % 4) % 4 := by omega
      rw [← h4]
      simp [List.replicate_succ]

theorem btoaChars_chars : ∀ b, ∀ c ∈ btoaChars b, c ∈ b64Alphabet ∨ c = '=' := by
  intro b
  induction b using btoaChars.induct with
  | case1 => simp [btoaChars]
  | case2 a =>
      intro c hc
      simp only [btoaChars, List.mem_cons, List.not_mem_nil, or_false] at hc
      rcases hc with rfl | rfl | rfl | rfl
      · exact Or.inl (encB64_mem _)
      · exact Or.inl (encB64_mem _)
      · exact Or.inr rfl
      · exact Or.inr rfl
  | case3 a b =>
      intro c hc
      simp only [btoaChars, List.mem_cons, List.not_mem_nil, or_false] at hc
      rcases hc with rfl | rfl | rfl | rfl
      · exact Or.inl (encB64_mem _)
      · exact Or.inl (encB64_mem _)
      · exact Or.inl (encB64_mem _)
      · exact Or.inr rfl
  | case4 a b c rest ih =>
      intro x hx
      simp only [btoaChars, List.mem_cons] at hx
      rcases hx with rfl | rfl | rfl | rfl | hx
      · exact Or.inl (encB64_mem _)
      · exact Or.inl (encB64_mem _)
      · exact Or.inl (encB64_mem _)
      · exact Or.inl (encB64_mem _)
      · exact ih x hx

theorem strip_restore (l : List Char) (h : ∀ c ∈ l, c ∈ b64Alphabet ∨ c = '=') :
    ((l.map urlEncChar).filter (fun c => !(c == '='))).map urlDecChar =
      l.filter (fun c => !(c == '=')) := by
  induction l with
  | nil => rfl
  | cons c cs ih =>
      have hcs : ∀ x ∈ cs, x ∈ b64Alphabet ∨ x = '=' := fun x hx => h x (by simp [hx])
      rcases h c (by simp) with hmem | rfl
      · have hne : (urlEncChar c == '=') = false :=
          beq_eq_false_iff_ne.mpr (urlEnc_alphabet_ne c hmem).2.2.1
        have hne2 : (c == '=') = false := beq_eq_false_iff_ne.mpr (alphabet_ne_pad c hmem)
        simp [List.filter_cons, hne, hne2, urlRound_alphabet c hmem, ih hcs]
      · simp [List.filter_cons, ih hcs, urlEncChar]

theorem pad_cons4 (c1 c2 c3 c4 : Char) (s : List Char) :
    padBase64 (c1 :: c2 :: c3 :: c4 :: s) = c1 :: c2 :: c3 :: c4 :: padBase64 s := by
  rw [padBase64_eq, padBase64_eq]
  have hc : (4 - (c1 :: c2 :: c3 :: c4 :: s).length % 4) % 4 = (4 - s.length % 4) % 4 := by
    simp only [List.length_cons]
    omega
  rw [hc]
  simp

theorem filter_btoa_ne_nil (x : Nat) (xs : List Nat) :
    ((btoaChars (x :: xs)).filter (fun c => !(c == '='))) ≠ [] := by
  have hne : ∀ d : Nat, (encB64 d == '=') = false :=
    fun d => beq_eq_false_iff_ne.mpr (encB64_ne_pad d)
  match xs with
  | [] => simp [btoaChars, List.filter_cons, hne]
  | [y] => simp [btoaChars, List.filter_cons, hne]
  | y :: z :: zs => simp [btoaChars, List.filter_cons, hne]

theorem roundtrip_aux : ∀ b : List Nat, (∀ x ∈ b, x < 256) →
    atobChars (padBase64 ((btoaChars b).filter (fun c => !(c == '=')))) = some b := by
  have hne : ∀ d : Nat, (encB64 d == '=') = false :=
    fun d => beq_eq_false_iff_ne.mpr (encB64_ne_pad d)
  intro b
  induction b using btoaChars.induct with
  | case1 =>
      intro _
      simp [btoaChars, padBase64_eq, atobChars]
  | case2 a =>
      intro h
      have ha : a < 256 := h a (by simp)
      have h1 : a / 4 < 64 := by omega
      have h2 : a % 4 * 16 < 64 := by omega
      show atobChars (padBase64 (([encB64 (a / 4), encB64 (a % 4 * 16), '=', '=']).filter
        (fun c => !(c == '=')))) = some [a]
      rw [show ([encB64 (a / 4), encB64 (a % 4 * 16), '=', '=']).filter (fun c => !(c == '=')) =
        [encB64 (a / 4), encB64 (a % 4 * 16)] by simp [List.filter_cons, hne]]
      rw [padBase64_eq]
      simp only [List.length_cons, List.length_nil]
      rw [show (4 - (0 + 1 + 1) % 4) % 4 = 2 by rfl]
      rw [show List.replicate 2 '=' = ['=', '='] from rfl]
      show atobChars [encB64 (a / 4), encB64 (a % 4 * 16), '=', '='] = some [a]
      rw [show atobChars [encB64 (a / 4), encB64 (a % 4 * 16), '=', '='] =
        decFinal (encB64 (a / 4)) (encB64 (a % 4 * 16)) '=' '=' from rfl]
      rw [decFinal, if_pos ⟨rfl, rfl⟩, decB64_encB64 _ h1, decB64_encB64 _ h2]
      simp only [Option.some.injEq, List.cons.injEq, and_true]
      omega
  | case3 a b =>
      intro h
      have ha : a < 256 := h a (by simp)
      have hb : b < 256 := h b (by simp)
      have h1 : a / 4 < 64 := by omega
      have h2 : a % 4 * 16 + b / 16 < 64 := by omega
      have h3 : b % 16 * 4 < 64 := by omega
      show atobChars (padBase64 (([encB64 (a / 4), encB64 (a % 4 * 16 + b / 16),
        encB64 (b % 16 * 4), '=']).filter (fun c => !(c == '=')))) = some [a, b]
      rw [show ([encB64 (a / 4), encB64 (a % 4 * 16 + b / 16), encB64 (b % 16 * 4),
        '=']).filter (fun c => !(c == '=')) =
        [encB64 (a / 4), encB64 (a % 4 * 16 + b / 16), encB64 (b % 16 * 4)] by
          simp [List.filter_cons, hne]]
      rw [padBase64_eq]
      simp only [List.length_cons, List.length_nil]
      rw [show (4 - (0 + 1 + 1 + 1) % 4) % 4 = 1 by rfl]
      rw [show List.replicate 1 '=' = ['='] from rfl]
      show atobChars [encB64 (a / 4), encB64 (a % 4 * 16 + b / 16), encB64 (b % 16 * 4), '='] =
        some [a, b]
      rw [show atobChars [encB64 (a / 4), encB64 (a % 4 * 16 + b / 16), encB64 (b % 16 * 4), '='] =
        decFinal (encB64 (a / 4)) (encB64 (a % 4 * 16 + b / 16)) (encB64 (b % 16 * 4)) '='
        from rfl]
      rw [decFinal, if_neg (by
        intro hcontra
        exact encB64_ne_pad (b % 16 * 4) hcontra.1), if_pos rfl,
        decB64_encB64 _ h1, decB64_encB64 _ h2, decB64_encB64 _ h3]
      simp only [Option.some.injEq, List.cons.injEq, and_true]
      omega
  | case4 a b c rest ih =>
      intro h
      have ha : a < 256 := h a (by simp)
      have hb : b < 256 := h b (by simp)
      have hc : c < 256 := h c (by simp)
      have hrest : ∀ x ∈ rest, x < 256 := fun x hx => h x (by simp [hx])
      have h1 : a / 4 < 64 := by omega
      have h2 : a % 4 * 16 + b / 16 < 64 := by omega
      have h3 : b % 16 * 4 + c / 64 < 64 := by omega
      have h4 : c % 64 < 64 := by omega
      show atobChars (padBase64 ((encB64 (a / 4) :: encB64 (a % 4 * 16 + b / 16) ::
        encB64 (b % 16 * 4 + c / 64) :: encB64 (c % 64) :: btoaChars rest).filter
        (fun c => !(c == '=')))) = some (a :: b :: c :: rest)
      rw [show (encB64 (a / 4) :: encB64 (a % 4 * 16 + b / 16) ::
        encB64 (b % 16 * 4 + c / 64) :: encB64 (c % 64) :: btoaChars rest).filter
        (fun c => !(c == '=')) =
        encB64 (a / 4) :: encB64 (a % 4 * 16 + b / 16) :: encB64 (b % 16 * 4 + c / 64) ::
        encB64 (c % 64) :: (btoaChars rest).filter (fun c => !(c == '=')) by
          simp [List.filter_cons, hne]]
      rw [pad_cons4]
      match hr : rest with
      | [] =>
          rw [show (btoaChars ([] : List Nat)).filter (fun c => !(c == '=')) = [] from rfl]
          rw [show padBase64 ([] : List Char) = [] by rw [padBase64_eq]; rfl]
          rw [show atobChars [encB64 (a / 4), encB64 (a % 4 * 16 + b / 16),
            encB64 (b % 16 * 4 + c / 64), encB64 (c % 64)] =
            decFinal (encB64 (a / 4)) (encB64 (a % 4 * 16 + b / 16))
              (encB64 (b % 16 * 4 + c / 64)) (encB64 (c % 64)) from rfl]
          rw [decFinal,
            if_neg (by intro hcontra; exact encB64_ne_pad (b % 16 * 4 + c / 64) hcontra.1),
            if_neg (encB64_ne_pad (c % 64)),
            dec4, decB64_encB64 _ h1, decB64_encB64 _ h2, decB64_encB64 _ h3,
            decB64_encB64 _ h4]
          simp only [Option.some.injEq, List.cons.injEq, and_true]
          omega
      | r :: rs =>
          have htail := filter_btoa_ne_nil r rs
          have hpadne : padBase64 ((btoaChars (r :: rs)).filter (fun c => !(c == '='))) ≠ [] := by
            rw [padBase64_eq]
            intro hcontra
            rcases List.append_eq_nil.mp hcontra with ⟨hf, _⟩
            exact htail hf
          obtain ⟨q, qs, hq⟩ := List.exists_cons_of_ne_nil hpadne
          rw [hq]
          show (match dec4 (encB64 (a / 4)) (encB64 (a % 4 * 16 + b / 16))
              (encB64 (b % 16 * 4 + c / 64)) (encB64 (c % 64)), atobChars (q :: qs) with
            | some bs, some tail => some (bs ++ tail)
            | _, _ => none) = some (a :: b :: c :: r :: rs)
          rw [← hq, ih hrest]
          rw [dec4, decB64_encB64 _ h1, decB64_encB64 _ h2, decB64_encB64 _ h3,
            decB64_encB64 _ h4]
          simp only [Option.some.injEq, List.cons_append, List.nil_append,
            List.cons.injEq, and_true]
          omega

/-- C2: for every byte sequence `b` of length 0 to 64 (entries are byte
values), `fromBase64Url (toBase64Url b) = b`, and the encoded string
contains none of the characters `+`, `/`, `=` (the decoder re-padding
partial groups before decoding). -/
theorem fromBase64Url_toBase64Url (b : List Nat) (hlen : b.length ≤ 64)
    (hb : ∀ x ∈ b, x < 256) :
    fromBase64Url (toBase64Url b) = some b ∧
      ∀ c ∈ (toBase64Url b).toList, c ≠ '+' ∧ c ≠ '/' ∧ c ≠ '=' := by
  refine ⟨?_, ?_⟩
  · show atobChars (padBase64 ((toBase64Url b).toList.map urlDecChar)) = some b
    rw [show (toBase64Url b).toList =
      ((btoaChars b).map urlEncChar).filter (fun c => !(c == '=')) from rfl]
    rw [strip_restore _ (btoaChars_chars b)]
    exact roundtrip_aux b hb
  · intro c hc
    rw [show (toBase64Url b).toList =
      ((btoaChars b).map urlEncChar).filter (fun c => !(c == '=')) from rfl] at hc
    obtain ⟨hc1, hc2⟩ := List.mem_filter.mp hc
    obtain ⟨c0, hc0, rfl⟩ := List.mem_map.mp hc1
    rcases btoaChars_chars b c0 hc0 with hmem | rfl
    · exact ⟨(urlEnc_alphabet_ne c0 hmem).1, (urlEnc_alphabet_ne c0 hmem).2.1,
        (urlEnc_alphabet_ne c0 hmem).2.2.1⟩
    · simp [urlEncChar] at hc2

/-- Witness for C2 at the concrete byte sequence `[0, 255, 7]`. -/
theorem fromBase64Url_toBase64Url_witness :
    ([0, 255, 7] : List Nat).length ≤ 64 ∧ (∀ x ∈ ([0, 255, 7] : List Nat), x < 256) ∧
      fromBase64Url (toBase64Url [0, 255, 7]) = some [0, 255, 7] :=
  ⟨by decide, by decide, (fromBase64Url_toBase64Url [0, 255, 7] (by decide) (by decide)).1⟩

/-! ## Lifecycle, access control and rate limiting (claims C1, C3 - C10) -/

theorem deleteRoute_no_owned_match (st : ServerState) (u fileId : String)
    (h : ∀ f ∈ st.files, f.id = fileId → f.ownerId ≠ u) :
    deleteRoute st (some u) fileId = (DeleteResult.notFoundOrNotOwner, st) := by
  unfold deleteRoute
  have hfind : st.files.find? (fun f => f.id == fileId && f.ownerId == u) = none := by
    rw [List.find?_eq_none]
    intro f hf
    simp only [Bool.and_eq_true, beq_iff_eq, not_and]
    exact fun h1 h2 => h f hf h1 h2
  simp only [hfind]

theorem uploadRoute_success (st : ServerState) (u : String) (content : List Nat)
    (iv filename mimetype : String) (expiresIn : Option Nat) (fileId ip ua : String)
    (now windowMs mx : Nat)
    (hrl : (rateLimitHit st.rlUpload ip now windowMs).1 ≤ mx / 2)
    (hiv : iv ≠ "") (hfn : filename ≠ "") (hmt : mimetype ≠ "")
    (hfresh : ∀ g ∈ st.files, g.id ≠ fileId) :
    uploadRoute st (some u) (some content) iv filename mimetype expiresIn fileId ip ua
        now windowMs mx =
      (.ok fileId (now + (expiresIn.getD DEFAULT_EXPIRY_HOURS) * HOUR_MS),
       { st with
           rlUpload := (rateLimitHit st.rlUpload ip now windowMs).2,
           disk := diskWrite st.disk ("uploads/" ++ fileId ++ ".bin") content,
           files := st.files ++
             [{ id := fileId, path := "uploads/" ++ fileId ++ ".bin", iv := iv, ownerId := u,
                filename := filename, mimetype := mimetype, filesize := content.length,
                createdAt := now, expiryTime := now + (expiresIn.getD DEFAULT_EXPIRY_HOURS) * HOUR_MS,
                downloadCount := 0 }],
           logs := st.logs ++ [mkLog now ip ua (some fileId) .UPLOAD_OK] }) := by
  have hany : st.files.any (fun f => f.id == fileId) = false := by
    rw [List.any_eq_false]
    intro f hf
    simp only [beq_iff_eq]
    exact hfresh f hf
  have hlen : ¬ iv.length = 0 := by
    intro hc
    apply hiv
    cases iv with
    | mk data =>
        cases data with
        | nil => rfl
        | cons c cs => simp [String.length] at hc
  simp only [uploadRoute]
  rw [if_neg (by omega : ¬ mx / 2 < (rateLimitHit st.rlUpload ip now windowMs).1)]
  rw [if_neg (by simp [hiv, hfn, hmt])]
  rw [if_neg hlen, hany]
  simp only [Bool.false_eq_true, if_false]
  cases expiresIn <;> rfl

/-! ## Concrete states used by counterexamples and witnesses -/

def uuidW : String := "aaaaaaaa-aaaa-aaaa-aaaa-aaaaaaaaaaaa"

def fileW : EncryptedFile :=
  { id := uuidW, path := "uploads/w.bin", iv := "aXY=", ownerId := "userB",
    filename := "f.txt", mimetype := "text/plain", filesize := 1,
    createdAt := 500, expiryTime := 1000, downloadCount := 0 }

def stW : ServerState :=
  { files := [fileW], disk := [("uploads/w.bin", [9])], logs := [],
    rlDownload := [], rlUpload := [] }

/-- C4 (amended): an authenticated requester who is not the owner of an
existing record gets the 404 not-found response (the route cannot tell a
foreign record from a missing one), not a 403 Forbidden, and the record
set and disk bytes are unchanged. -/
theorem deleteOwned_nonowner (st : ServerState) (u fileId : String) (f : EncryptedFile)
    (hf : f ∈ st.files) (hid : f.id = fileId) (hown : f.ownerId ≠ u)
    (hall : ∀ g ∈ st.files, g.id = fileId → g.ownerId ≠ u) :
    (deleteRoute st (some u) fileId).1 = DeleteResult.notFoundOrNotOwner ∧
      deleteStatus (deleteRoute st (some u) fileId).1 = 404 ∧
      (deleteRoute st (some u) fileId).2 = st := by
  rw [deleteRoute_no_owned_match st u fileId hall]
  exact ⟨rfl, rfl, rfl⟩

/-- Witness for C4: requester `userA`, record owned by `userB`. -/
theorem deleteOwned_nonowner_witness :
    (deleteRoute stW (some "userA") uuidW).1 = DeleteResult.notFoundOrNotOwner ∧
      deleteStatus (deleteRoute stW (some "userA") uuidW).1 = 404 ∧
      (deleteRoute stW (some "userA") uuidW).2 = stW :=
  deleteOwned_nonowner stW "userA" uuidW fileW (by decide) (by decide) (by decide)
    (by decide)

/-- C4 counterexample: the non-owner outcome is the 404 response, not the
403 Forbidden the claim states; the state is unchanged. -/
theorem deleteOwned_nonowner_counterexample :
    deleteStatus (deleteRoute stW (some "userA") uuidW).1 = 404 ∧
      deleteStatus (deleteRoute stW (some "userA") uuidW).1 ≠ 403 ∧
      (deleteRoute stW (some "userA") uuidW).2 = stW := by decide

/-- C10: a non-owner deleting an existing record and any requester
deleting a nonexistent id observe the same result (the same 404 branch),
and neither run changes the server state — the endpoint does not reveal
whether the id exists. -/
theorem deleteOwned_existence_hiding
    (stA : ServerState) (u idA : String) (f : EncryptedFile)
    (hfA : f ∈ stA.files) (hid : f.id = idA) (hown : f.ownerId ≠ u)
    (hallA : ∀ g ∈ stA.files, g.id = idA → g.ownerId ≠ u)
    (stB : ServerState) (v idB : String)
    (hB : ∀ g ∈ stB.files, g.id ≠ idB) :
    (deleteRoute stA (some u) idA).1 = (deleteRoute stB (some v) idB).1 ∧
      (deleteRoute stA (some u) idA).2 = stA ∧
      (deleteRoute stB (some v) idB).2 = stB := by
  rw [deleteRoute_no_owned_match stA u idA hallA,
    deleteRoute_no_owned_match stB v idB (fun g hg h1 => absurd h1 (hB g hg))]
  exact ⟨rfl, rfl, rfl⟩

/-- Witness for C10: run A deletes `userB`'s record as `userA`; run B
deletes an id absent from an empty registry. -/
theorem deleteOwned_existence_hiding_witness :
    (deleteRoute stW (some "userA") uuidW).1 =
        (deleteRoute (ServerState.mk [] [] [] [] []) (some "userC") uuidW).1 ∧
      (deleteRoute stW (some "userA") uuidW).2 = stW ∧
      (deleteRoute (ServerState.mk [] [] [] [] []) (some "userC") uuidW).2 =
        ServerState.mk [] [] [] [] [] :=
  deleteOwned_existence_hiding stW "userA" uuidW fileW (by decide) (by decide)
    (by decide) (by decide) (ServerState.mk [] [] [] [] []) "userC" uuidW (by decide)

theorem blobRoute_rateLimited_eq (st : ServerState) (fileId ip ua : String)
    (now windowMs mx : Nat)
    (h : mx < (rateLimitHit st.rlDownload ip now windowMs).1) :
    blobRoute st fileId ip ua now windowMs mx =
      (.rateLimited, { st with rlDownload := (rateLimitHit st.rlDownload ip now windowMs).2 }) := by
  simp only [blobRoute]
  rw [if_pos h]

theorem blobRoute_notFound_eq (st : ServerState) (fileId ip ua : String)
    (now windowMs mx : Nat)
    (hallow : (rateLimitHit st.rlDownload ip now windowMs).1 ≤ mx)
    (hvalid : isValidUUID fileId = true)
    (hnone : dbGetFileById st.files fileId = none) :
    blobRoute st fileId ip ua now windowMs mx =
      (.notFound, { st with
          rlDownload := (rateLimitHit st.rlDownload ip now windowMs).2,
          logs := st.logs ++ [mkLog now ip ua (some fileId) .NOT_FOUND] }) := by
  simp only [blobRoute]
  rw [if_neg (by omega : ¬ mx < (rateLimitHit st.rlDownload ip now windowMs).1)]
  simp only [hvalid, Bool.not_true, Bool.false_eq_true, if_false, hnone]

theorem blobRoute_expired_eq (st : ServerState) (fileId ip ua : String)
    (now windowMs mx : Nat) (f : EncryptedFile)
    (hallow : (rateLimitHit st.rlDownload ip now windowMs).1 ≤ mx)
    (hvalid : isValidUUID fileId = true)
    (hfind : dbGetFileById st.files fileId = some f)
    (hexp : f.expiryTime < now) :
    blobRoute st fileId ip ua now windowMs mx =
      (.expired, { st with
          rlDownload := (rateLimitHit st.rlDownload ip now windowMs).2,
          logs := st.logs ++ [mkLog now ip ua (some fileId) .EXPIRED] }) := by
  simp only [blobRoute]
  rw [if_neg (by omega : ¬ mx < (rateLimitHit st.rlDownload ip now windowMs).1)]
  simp only [hvalid, Bool.not_true, Bool.false_eq_true, if_false, hfind]
  rw [if_pos hexp]

theorem blobRoute_ok_eq (st : ServerState) (fileId ip ua : String)
    (now windowMs mx : Nat) (f : EncryptedFile) (content : List Nat)
    (hallow : (rateLimitHit st.rlDownload ip now windowMs).1 ≤ mx)
    (hvalid : isValidUUID fileId = true)
    (hfind : dbGetFileById st.files fileId = some f)
    (hexp : ¬ f.expiryTime < now)
    (hdisk : diskRead st.disk f.path = some content) :
    blobRoute st fileId ip ua now windowMs mx =
      (.ok { ciphertext := btoa content, iv := f.iv, filename := f.filename,
             mimetype := f.mimetype, filesize := f.filesize },
       { st with
           rlDownload := (rateLimitHit st.rlDownload ip now windowMs).2,
           files := incrementDownloadCount st.files fileId,
           logs := st.logs ++ [mkLog now ip ua (some fileId) .DOWNLOAD_OK] }) := by
  simp only [blobRoute]
  rw [if_neg (by omega : ¬ mx < (rateLimitHit st.rlDownload ip now windowMs).1)]
  simp only [hvalid, Bool.not_true, Bool.false_eq_true, if_false, hfind]
  rw [if_neg hexp]
  simp only [hdisk]

/-- C3 (amended): for a well-formed (UUID-shaped) download id admitted by
the download limiter: no record means the blob download fails NotFound; a
record with `expiryAt < now` (strictly — at `expiryAt = now` the code still
serves the file) fails Expired, an outcome distinct from NotFound; and a
record created with ttlHours = 0 is Expired on any download attempt at a
strictly later instant. -/
theorem resolveForDownload_outcomes (st : ServerState) (fileId ip ua : String)
    (now windowMs mx : Nat)
    (hallow : (rateLimitHit st.rlDownload ip now windowMs).1 ≤ mx)
    (hvalid : isValidUUID fileId = true) :
    (dbGetFileById st.files fileId = none →
      (blobRoute st fileId ip ua now windowMs mx).1 = BlobResult.notFound) ∧
    (∀ f, dbGetFileById st.files fileId = some f → f.expiryTime < now →
      (blobRoute st fileId ip ua now windowMs mx).1 = BlobResult.expired) ∧
    BlobResult.expired ≠ BlobResult.notFound ∧
    (∀ (u : String) (content : List Nat) (iv2 fn mt ip2 ua2 ip3 ua3 : String)
        (now2 wm2 mxU wm3 mx3 : Nat),
      (rateLimitHit st.rlUpload ip2 now wm2).1 ≤ mxU / 2 →
      iv2 ≠ "" → fn ≠ "" → mt ≠ "" →
      (∀ g ∈ st.files, g.id ≠ fileId) →
      now < now2 →
      (rateLimitHit st.rlDownload ip3 now2 wm3).1 ≤ mx3 →
      (blobRoute (uploadRoute st (some u) (some content) iv2 fn mt (some 0) fileId
          ip2 ua2 now wm2 mxU).2 fileId ip3 ua3 now2 wm3 mx3).1 = BlobResult.expired) := by
  refine ⟨?_, ?_, by decide, ?_⟩
  · intro hnone
    rw [blobRoute_notFound_eq st fileId ip ua now windowMs mx hallow hvalid hnone]
  · intro f hfind hexp
    rw [blobRoute_expired_eq st fileId ip ua now windowMs mx f hallow hvalid hfind hexp]
  · intro u content iv2 fn mt ip2 ua2 ip3 ua3 now2 wm2 mxU wm3 mx3 hU hiv hfn hmt hfresh
      hlt hD2
    rw [uploadRoute_success st u content iv2 fn mt (some 0) fileId ip2 ua2 now wm2 mxU hU
      hiv hfn hmt hfresh]
    have hfind : dbGetFileById
        (st.files ++
          [{ id := fileId, path := "uploads/" ++ fileId ++ ".bin", iv := iv2, ownerId := u,
             filename := fn, mimetype := mt, filesize := content.length,
             createdAt := now, expiryTime := now + ((some 0).getD DEFAULT_EXPIRY_HOURS) * HOUR_MS,
             downloadCount := 0 }]) fileId =
        some { id := fileId, path := "uploads/" ++ fileId ++ ".bin", iv := iv2, ownerId := u,
               filename := fn, mimetype := mt, filesize := content.length,
               createdAt := now, expiryTime := now + ((some 0).getD DEFAULT_EXPIRY_HOURS) * HOUR_MS,
               downloadCount := 0 } := by
      unfold dbGetFileById
      rw [List.find?_append]
      have h1 : st.files.find? (fun f => f.id == fileId) = none := by
        rw [List.find?_eq_none]
        intro g hg
        simp only [beq_iff_eq]
        exact hfresh g hg
      rw [h1]
      simp [List.find?]
    rw [blobRoute_expired_eq _ fileId ip3 ua3 now2 wm3 mx3 _ (by simpa using hD2)
      hvalid hfind (by simp [Option.getD]; omega)]

theorem cleanupLoop_files (todo : List EncryptedFile) :
    ∀ (files : List EncryptedFile) (disk : List (String × List Nat)) (cnt : Nat),
      (cleanupLoop todo files disk cnt).1 =
        files.filter (fun g => todo.all (fun f => !(g.id == f.id))) := by
  induction todo with
  | nil => intro files disk cnt; simp [cleanupLoop, List.all_nil, List.filter_true]
  | cons f rest ih =>
      intro files disk cnt
      show (cleanupLoop rest (files.filter (fun g => !(g.id == f.id)))
        (diskErase disk f.path) (cnt + 1)).1 = _
      rw [ih]
      rw [List.filter_filter]
      apply List.filter_congr
      intro g _
      rw [List.all_cons]
      exact Bool.and_comm _ _

theorem cleanupLoop_count (todo : List EncryptedFile) :
    ∀ (files : List EncryptedFile) (disk : List (String × List Nat)) (cnt : Nat),
      (cleanupLoop todo files disk cnt).2.2 = cnt + todo.length := by
  induction todo with
  | nil => intro files disk cnt; rfl
  | cons f rest ih =>
      intro files disk cnt
      show (cleanupLoop rest (files.filter (fun g => !(g.id == f.id)))
        (diskErase disk f.path) (cnt + 1)).2.2 = _
      rw [ih]
      simp [List.length_cons]
      omega

theorem cleanup_files_eq (files : List EncryptedFile) (disk : List (String × List Nat))
    (now : Nat) (hid : (files.map (fun f => f.id)).Nodup) :
    (cleanupExpiredFiles files disk now).1 =
      files.filter (fun f => !(decide (f.expiryTime < now))) := by
  unfold cleanupExpiredFiles
  rw [cleanupLoop_files]
  apply List.filter_congr
  intro g hg
  by_cases hexp : g.expiryTime < now
  · have hmem : g ∈ files.filter (fun f => decide (f.expiryTime < now)) :=
      List.mem_filter.mpr ⟨hg, by simpa using hexp⟩
    have : (files.filter (fun f => decide (f.expiryTime < now))).all
        (fun f => !(g.id == f.id)) = false := by
      rw [List.all_eq_false]
      exact ⟨g, hmem, by simp⟩
    rw [this]
    simp [hexp]
  · have : (files.filter (fun f => decide (f.expiryTime < now))).all
        (fun f => !(g.id == f.id)) = true := by
      rw [List.all_eq_true]
      intro f hf
      obtain ⟨hfmem, hfexp⟩ := List.mem_filter.mp hf
      have hne : g ≠ f := by
        intro hcontra
        rw [hcontra] at hexp
        exact hexp (by simpa using hfexp)
      have : g.id ≠ f.id := by
        intro hcontra
        exact hne (List.inj_on_of_nodup_map hid hg hfmem hcontra)
      simp [this]
    rw [this]
    simp [hexp]

/-- C5: `sweepExpired` (the cleanup script) deletes exactly the records
with `expiryAt < now` — for every disk state, so also when the bytes are
already gone — leaves every non-expired record unchanged, reports the
count of expired records, and an immediately repeated call deletes zero
records.  Ids are assumed pairwise distinct (`id` is the PRIMARY KEY). -/
theorem sweepExpired_correct (files : List EncryptedFile) (disk : List (String × List Nat))
    (now : Nat) (hid : (files.map (fun f => f.id)).Nodup) :
    (cleanupExpiredFiles files disk now).1 =
      files.filter (fun f => !(decide (f.expiryTime < now))) ∧
    (cleanupExpiredFiles files disk now).2.2 =
      (files.filter (fun f => decide (f.expiryTime < now))).length ∧
    (∀ f ∈ files, ¬ f.expiryTime < now → f ∈ (cleanupExpiredFiles files disk now).1) ∧
    (∀ disk2 : List (String × List Nat),
      cleanupExpiredFiles (cleanupExpiredFiles files disk now).1 disk2 now =
        ((cleanupExpiredFiles files disk now).1, disk2, 0)) := by
  have hmain := cleanup_files_eq files disk now hid
  refine ⟨hmain, ?_, ?_, ?_⟩
  · unfold cleanupExpiredFiles
    rw [cleanupLoop_count]
    omega
  · intro f hf hexp
    rw [hmain]
    exact List.mem_filter.mpr ⟨hf, by simpa using hexp⟩
  · intro disk2
    have hnone : (cleanupExpiredFiles files disk now).1.filter
        (fun f => decide (f.expiryTime < now)) = [] := by
      rw [hmain, List.filter_filter]
      rw [List.filter_congr
        (fun x _ => Bool.and_not_self (decide (x.expiryTime < now)))]
      exact List.filter_false _
    show cleanupLoop ((cleanupExpiredFiles files disk now).1.filter
      (fun f => decide (f.expiryTime < now))) _ disk2 0 = _
    rw [hnone]
    rfl

def uuidX : String := "bbbbbbbb-bbbb-bbbb-bbbb-bbbbbbbbbbbb"

def fileX : EncryptedFile :=
  { fileW with id := uuidX, path := "uploads/x.bin", expiryTime := 10 }

/-- Witness for C5: one expired and one live record; the sweep at time 500
deletes exactly the expired one. -/
theorem sweepExpired_correct_witness :
    (cleanupExpiredFiles [fileW, fileX] [] 500).1 =
      [fileW, fileX].filter (fun f => !(decide (f.expiryTime < 500))) ∧
    (cleanupExpiredFiles [fileW, fileX] [] 500).2.2 =
      ([fileW, fileX].filter (fun f => decide (f.expiryTime < 500))).length :=
  ⟨(sweepExpired_correct [fileW, fileX] [] 500 (by decide)).1,
   (sweepExpired_correct [fileW, fileX] [] 500 (by decide)).2.1⟩

theorem uploadRoute_rateLimited_eq (st : ServerState) (u : String)
    (fileContent : Option (List Nat)) (iv filename mimetype : String)
    (expiresIn : Option Nat) (fileId ip ua : String) (now windowMs mx : Nat)
    (h : mx / 2 < (rateLimitHit st.rlUpload ip now windowMs).1) :
    uploadRoute st (some u) fileContent iv filename mimetype expiresIn fileId ip ua
        now windowMs mx =
      (.rateLimited, { st with rlUpload := (rateLimitHit st.rlUpload ip now windowMs).2 }) := by
  simp only [uploadRoute]
  rw [if_pos h]

/-- C6 (amended): a request from a source over a limiter's ceiling fails
with RateLimited before any FileRegistry or store operation executes —
records, disk and logs are all unchanged (on the upload route this holds
once authentication has passed, since the token check precedes the
limiter) — but no RATE_LIMITED audit event is appended: no code path ever
emits one. -/
theorem rateLimited_before_store (st : ServerState) (fileId ip ua : String)
    (now windowMs mx : Nat)
    (hdl : mx < (rateLimitHit st.rlDownload ip now windowMs).1) :
    ((blobRoute st fileId ip ua now windowMs mx).1 = BlobResult.rateLimited ∧
     (blobRoute st fileId ip ua now windowMs mx).2.files = st.files ∧
     (blobRoute st fileId ip ua now windowMs mx).2.disk = st.disk ∧
     (blobRoute st fileId ip ua now windowMs mx).2.logs = st.logs) ∧
    (∀ (u : String) (fileContent : Option (List Nat)) (iv fn mt : String)
        (expiresIn : Option Nat) (fid2 : String) (mxU : Nat),
      mxU / 2 < (rateLimitHit st.rlUpload ip now windowMs).1 →
      (uploadRoute st (some u) fileContent iv fn mt expiresIn fid2 ip ua
          now windowMs mxU).1 = UploadResult.rateLimited ∧
      (uploadRoute st (some u) fileContent iv fn mt expiresIn fid2 ip ua
          now windowMs mxU).2.files = st.files ∧
      (uploadRoute st (some u) fileContent iv fn mt expiresIn fid2 ip ua
          now windowMs mxU).2.disk = st.disk ∧
      (uploadRoute st (some u) fileContent iv fn mt expiresIn fid2 ip ua
          now windowMs mxU).2.logs = st.logs) := by
  constructor
  · rw [blobRoute_rateLimited_eq st fileId ip ua now windowMs mx hdl]
    exact ⟨rfl, rfl, rfl, rfl⟩
  · intro u fileContent iv fn mt expiresIn fid2 mxU hup
    rw [uploadRoute_rateLimited_eq st u fileContent iv fn mt expiresIn fid2 ip ua
      now windowMs mxU hup]
    exact ⟨rfl, rfl, rfl, rfl⟩

/-- Over-ceiling limiter states for the concrete counterexamples. -/
def stL : ServerState :=
  { stW with rlDownload := [{ key := "ip", windowStart := 0, hits := 100 }] }

def stLU : ServerState :=
  { stW with rlUpload := [{ key := "ip", windowStart := 0, hits := 50 }] }

/-- C6 counterexample: a rate-limited blob request appends no RATE_LIMITED
audit event (the log is untouched), and an over-ceiling upload request
with no valid token fails with the authentication error, not RateLimited. -/
theorem rateLimited_audit_counterexample :
    (blobRoute stL uuidW "ip" "ua" 10 900000 100).1 = BlobResult.rateLimited ∧
    (blobRoute stL uuidW "ip" "ua" 10 900000 100).2.logs = stL.logs ∧
    ((blobRoute stL uuidW "ip" "ua" 10 900000 100).2.logs.filter
      (fun e => e.eventType == EventType.RATE_LIMITED)).length = 0 ∧
    (uploadRoute stLU none (some [1]) "aXY=" "n" "t" none uuidW "ip" "ua"
      10 900000 100).1 = UploadResult.noAuth ∧
    UploadResult.noAuth ≠ UploadResult.rateLimited := by decide

/-- Witness for C6 at the concrete over-ceiling state. -/
theorem rateLimited_before_store_witness :
    (blobRoute stL uuidW "ip" "ua" 10 900000 100).1 = BlobResult.rateLimited ∧
    (blobRoute stL uuidW "ip" "ua" 10 900000 100).2.files = stL.files ∧
    (blobRoute stL uuidW "ip" "ua" 10 900000 100).2.disk = stL.disk ∧
    (blobRoute stL uuidW "ip" "ua" 10 900000 100).2.logs = stL.logs :=
  (rateLimited_before_store stL uuidW "ip" "ua" 10 900000 100 (by decide)).1

/-- C7 (amended): both retrieval routes are public (neither takes an
authenticated identity), and only the blob route is gated by the download
limiter: an over-ceiling source is rejected there, while the metadata
route — which is wired to no limiter — serves an existing record
regardless of any rate-limit state, and leaves the state unchanged. -/
theorem retrieval_gating (st : ServerState) (fileId ip ua : String)
    (now windowMs mx : Nat) (f : EncryptedFile)
    (hdl : mx < (rateLimitHit st.rlDownload ip now windowMs).1)
    (hvalid : isValidUUID fileId = true)
    (hfind : dbGetFileById st.files fileId = some f) :
    (blobRoute st fileId ip ua now windowMs mx).1 = BlobResult.rateLimited ∧
    metadataRoute st fileId ip ua now =
      (MetaResult.ok
        { filename := f.filename, mimetype := f.mimetype,
          filesize := f.filesize, createdAt := f.createdAt, expiryTime := f.expiryTime,
          downloadCount := f.downloadCount, existsFlag := true,
          expired := decide (f.expiryTime < now) }, st) := by
  constructor
  · rw [blobRoute_rateLimited_eq st fileId ip ua now windowMs mx hdl]
  · unfold metadataRoute
    simp only [hvalid, Bool.not_true, Bool.false_eq_true, if_false, hfind]

/-- C7 counterexample: from a source over the download ceiling, the blob
request is rejected but the metadata request for the same id succeeds —
the metadata endpoint is not gated by the download limiter. -/
theorem metadata_not_gated_counterexample :
    (blobRoute stL uuidW "ip" "ua" 10 900000 100).1 = BlobResult.rateLimited ∧
    (metadataRoute stL uuidW "ip" "ua" 10).1 =
      MetaResult.ok
        { filename := "f.txt", mimetype := "text/plain", filesize := 1,
          createdAt := 500, expiryTime := 1000, downloadCount := 0, existsFlag := true,
          expired := false } ∧
    (metadataRoute stL uuidW "ip" "ua" 10).2 = stL := by decide

/-- Witness for C7 at the concrete over-ceiling state. -/
theorem retrieval_gating_witness :
    (blobRoute stL uuidW "ip" "ua" 10 900000 100).1 = BlobResult.rateLimited ∧
    metadataRoute stL uuidW "ip" "ua" 10 =
      (MetaResult.ok
        { filename := fileW.filename, mimetype := fileW.mimetype,
          filesize := fileW.filesize, createdAt := fileW.createdAt,
          expiryTime := fileW.expiryTime, downloadCount := fileW.downloadCount,
          existsFlag := true, expired := decide (fileW.expiryTime < 10) }, stL) :=
  retrieval_gating stL uuidW "ip" "ua" 10 900000 100 fileW (by decide) (by decide)
    (by decide)

/-- C3 counterexample: (1) a record whose `expiryAt` equals `now` is
served, not reported Expired — the code's check is strict `now >
expiryTime`; (2) an id with no record but a malformed shape fails with the
400 invalid-id outcome, not NotFound. -/
theorem resolveForDownload_counterexample :
    fileW.expiryTime ≤ 1000 ∧
    (blobRoute stW uuidW "ip" "ua" 1000 900000 100).1 =
      BlobResult.ok
        { ciphertext := "CQ==", iv := "aXY=", filename := "f.txt",
          mimetype := "text/plain", filesize := 1 } ∧
    (blobRoute stW uuidW "ip" "ua" 1000 900000 100).1 ≠ BlobResult.expired ∧
    dbGetFileById (ServerState.mk [] [] [] [] []).files "xyz" = none ∧
    (blobRoute (ServerState.mk [] [] [] [] []) "xyz" "ip" "ua" 0 900000 100).1 =
      BlobResult.invalidId ∧
    BlobResult.invalidId ≠ BlobResult.notFound := by decide

/-- Witness for C3: the same record one instant after its expiry. -/
theorem resolveForDownload_outcomes_witness :
    (blobRoute stW uuidW "ip" "ua" 2000 900000 100).1 = BlobResult.expired :=
  (resolveForDownload_outcomes stW uuidW "ip" "ua" 2000 900000 100 (by decide)
    (by decide)).2.1 fileW (by decide) (by decide)

/-- C8 (amended): every record the upload route commits has
`createdAt = now` and `expiryAt = createdAt + hours * 1h`, where `hours` is
the given `expiresIn` or the default 24 when absent; `expiryAt > createdAt`
holds exactly when `hours > 0` — so it holds for the absent case and every
positive ttl, but fails at `expiresIn = 0`, where `expiryAt = createdAt`. -/
theorem upload_expiry_invariant (st : ServerState) (u : String) (content : List Nat)
    (iv filename mimetype : String) (expiresIn : Option Nat) (fileId ip ua : String)
    (now windowMs mx : Nat)
    (hrl : (rateLimitHit st.rlUpload ip now windowMs).1 ≤ mx / 2)
    (hiv : iv ≠ "") (hfn : filename ≠ "") (hmt : mimetype ≠ "")
    (hfresh : ∀ g ∈ st.files, g.id ≠ fileId) :
    ∃ r : EncryptedFile,
      (uploadRoute st (some u) (some content) iv filename mimetype expiresIn fileId
        ip ua now windowMs mx).2.files = st.files ++ [r] ∧
      r.createdAt = now ∧
      r.expiryTime = now + (expiresIn.getD DEFAULT_EXPIRY_HOURS) * HOUR_MS ∧
      (expiresIn = none → r.createdAt < r.expiryTime) ∧
      (∀ h, expiresIn = some h → (r.createdAt < r.expiryTime ↔ 0 < h)) := by
  rw [uploadRoute_success st u content iv filename mimetype expiresIn fileId ip ua
    now windowMs mx hrl hiv hfn hmt hfresh]
  refine ⟨_, rfl, rfl, rfl, ?_, ?_⟩
  · intro he
    subst he
    simp only [Option.getD, DEFAULT_EXPIRY_HOURS, HOUR_MS]
    omega
  · intro h he
    subst he
    simp only [Option.getD, HOUR_MS]
    omega

/-- C8 counterexample: an upload with `expiresIn = 0` commits a record
with `expiryAt = createdAt`, violating `expiryAt > createdAt`. -/
theorem upload_expiry_counterexample :
    ((uploadRoute (ServerState.mk [] [] [] [] []) (some "u") (some [1]) "aXY=" "n" "t"
        (some 0) uuidW "ip" "ua" 500 900000 100).2.files.map
          (fun r => (r.createdAt, r.expiryTime))) = [(500, 500)] ∧
    ¬ (500 : Nat) < 500 := by decide

/-- Witness for C8: an upload with `expiresIn` absent commits a record
with a strictly later expiry. -/
theorem upload_expiry_invariant_witness :
    ∃ r : EncryptedFile,
      (uploadRoute (ServerState.mk [] [] [] [] []) (some "u") (some [1]) "aXY=" "n" "t"
        none uuidW "ip" "ua" 500 900000 100).2.files = [] ++ [r] ∧
      r.createdAt < r.expiryTime := by
  obtain ⟨r, h1, _, _, h4, _⟩ := upload_expiry_invariant (ServerState.mk [] [] [] [] [])
    "u" [1] "aXY=" "n" "t" none uuidW "ip" "ua" 500 900000 100 (by decide) (by decide)
    (by decide) (by decide) (by decide)
  exact ⟨r, h1, h4 rfl⟩

theorem blobRoute_invalidId_eq (st : ServerState) (fileId ip ua : String)
    (now windowMs mx : Nat)
    (hallow : (rateLimitHit st.rlDownload ip now windowMs).1 ≤ mx)
    (hinvalid : isValidUUID fileId = false) :
    blobRoute st fileId ip ua now windowMs mx =
      (.invalidId, { st with rlDownload := (rateLimitHit st.rlDownload ip now windowMs).2 }) := by
  simp only [blobRoute]
  rw [if_neg (by omega : ¬ mx < (rateLimitHit st.rlDownload ip now windowMs).1)]
  simp only [hinvalid, Bool.not_false, if_true]

theorem blobRoute_dataNotFound_eq (st : ServerState) (fileId ip ua : String)
    (now windowMs mx : Nat) (f : EncryptedFile)
    (hallow : (rateLimitHit st.rlDownload ip now windowMs).1 ≤ mx)
    (hvalid : isValidUUID fileId = true)
    (hfind : dbGetFileById st.files fileId = some f)
    (hexp : ¬ f.expiryTime < now)
    (hdisk : diskRead st.disk f.path = none) :
    blobRoute st fileId ip ua now windowMs mx =
      (.dataNotFound, { st with rlDownload := (rateLimitHit st.rlDownload ip now windowMs).2 }) := by
  simp only [blobRoute]
  rw [if_neg (by omega : ¬ mx < (rateLimitHit st.rlDownload ip now windowMs).1)]
  simp only [hvalid, Bool.not_true, Bool.false_eq_true, if_false, hfind]
  rw [if_neg hexp]
  simp only [hdisk]

theorem blobRoute_fail_files (st : ServerState) (fileId ip ua : String) (now wm mx : Nat)
    (h : ∀ resp, (blobRoute st fileId ip ua now wm mx).1 ≠ BlobResult.ok resp) :
    (blobRoute st fileId ip ua now wm mx).2.files = st.files := by
  by_cases hrl : mx < (rateLimitHit st.rlDownload ip now wm).1
  · rw [blobRoute_rateLimited_eq st fileId ip ua now wm mx hrl]
  · have hallow : (rateLimitHit st.rlDownload ip now wm).1 ≤ mx := by omega
    cases hv : isValidUUID fileId with
    | false => rw [blobRoute_invalidId_eq st fileId ip ua now wm mx hallow hv]
    | true =>
        cases hfind : dbGetFileById st.files fileId with
        | none => rw [blobRoute_notFound_eq st fileId ip ua now wm mx hallow hv hfind]
        | some f =>
            by_cases hexp : f.expiryTime < now
            · rw [blobRoute_expired_eq st fileId ip ua now wm mx f hallow hv hfind hexp]
            · cases hdisk : diskRead st.disk f.path with
              | none =>
                  rw [blobRoute_dataNotFound_eq st fileId ip ua now wm mx f hallow hv
                    hfind hexp hdisk]
              | some content =>
                  exfalso
                  apply h { ciphertext := btoa content, iv := f.iv, filename := f.filename,
                            mimetype := f.mimetype, filesize := f.filesize }
                  rw [blobRoute_ok_eq st fileId ip ua now wm mx f content hallow hv hfind
                    hexp hdisk]

theorem incrementDownloadCount_mem (files : List EncryptedFile) (fileId : String)
    (g : EncryptedFile) (hg : g ∈ incrementDownloadCount files fileId) :
    ∃ f ∈ files, g = f ∨ (f.id = fileId ∧
      g = { f with downloadCount := f.downloadCount + 1 }) := by
  obtain ⟨f, hf, hgf⟩ := List.mem_map.mp hg
  refine ⟨f, hf, ?_⟩
  by_cases hid : f.id = fileId
  · right
    refine ⟨hid, ?_⟩
    rw [← hgf]
    simp [hid]
  · left
    rw [← hgf]
    simp [hid]

theorem incrementDownloadCount_of_mem (files : List EncryptedFile) (fileId : String)
    (f : EncryptedFile) (hf : f ∈ files) :
    (f.id ≠ fileId → f ∈ incrementDownloadCount files fileId) ∧
    (f.id = fileId →
      { f with downloadCount := f.downloadCount + 1 } ∈ incrementDownloadCount files fileId) := by
  constructor
  · intro hne
    have himg : (fun f : EncryptedFile =>
        if f.id == fileId then { f with downloadCount := f.downloadCount + 1 } else f) f = f := by
      simp [hne]
    have hm := List.mem_map_of_mem
      (fun f : EncryptedFile =>
        if f.id == fileId then { f with downloadCount := f.downloadCount + 1 } else f) hf
    rw [himg] at hm
    exact hm
  · intro heq
    have himg : (fun f : EncryptedFile =>
        if f.id == fileId then { f with downloadCount := f.downloadCount + 1 } else f) f =
        { f with downloadCount := f.downloadCount + 1 } := by
      simp [heq]
    have hm := List.mem_map_of_mem
      (fun f : EncryptedFile =>
        if f.id == fileId then { f with downloadCount := f.downloadCount + 1 } else f) hf
    rw [himg] at hm
    exact hm

theorem metadataRoute_files (st : ServerState) (fileId ip ua : String) (now : Nat) :
    (metadataRoute st fileId ip ua now).2.files = st.files := by
  unfold metadataRoute
  by_cases hv : isValidUUID fileId
  · simp only [hv, Bool.not_true, Bool.false_eq_true, if_false]
    cases hfind : dbGetFileById st.files fileId <;> simp
  · simp [hv]

theorem listRoute_state (st : ServerState) (user : Option String) (now : Nat) :
    (listRoute st user now).2 = st := by
  cases user <;> rfl

theorem deleteRoute_files_sublist (st : ServerState) (user : Option String)
    (fileId : String) :
    (deleteRoute st user fileId).2.files.Sublist st.files := by
  cases user with
  | none => exact List.Sublist.refl _
  | some u =>
      unfold deleteRoute
      cases hfind : st.files.find? (fun f => f.id == fileId && f.ownerId == u) with
      | none => simp only [hfind]; exact List.Sublist.refl _
      | some f => simp only [hfind]; exact List.filter_sublist _

theorem cleanup_files_sublist (files : List EncryptedFile)
    (disk : List (String × List Nat)) (now : Nat) :
    ((cleanupExpiredFiles files disk now).1).Sublist files := by
  unfold cleanupExpiredFiles
  rw [cleanupLoop_files]
  exact List.filter_sublist _

/-- C9: `downloadCount` starts at 0 on every committed record, is
incremented by exactly one on each successful blob download and by no
other operation — every failing blob outcome (rate-limited, invalid id,
not found, expired, bytes missing) and every read-only route leave the
records untouched, and delete/sweep only remove whole records — and every
other field of a record is immutable after creation. -/
theorem downloadCount_lifecycle :
    (∀ (st : ServerState) (u : String) (content : List Nat)
        (iv fn mt : String) (expiresIn : Option Nat) (fileId ip ua : String)
        (now wm mx : Nat),
      (rateLimitHit st.rlUpload ip now wm).1 ≤ mx / 2 → iv ≠ "" → fn ≠ "" → mt ≠ "" →
      (∀ g ∈ st.files, g.id ≠ fileId) →
      ∃ r, (uploadRoute st (some u) (some content) iv fn mt expiresIn fileId ip ua
              now wm mx).2.files = st.files ++ [r] ∧ r.downloadCount = 0) ∧
    (∀ (st : ServerState) (fileId ip ua : String) (now wm mx : Nat)
        (f : EncryptedFile) (content : List Nat),
      (rateLimitHit st.rlDownload ip now wm).1 ≤ mx → isValidUUID fileId = true →
      dbGetFileById st.files fileId = some f → ¬ f.expiryTime < now →
      diskRead st.disk f.path = some content →
      (blobRoute st fileId ip ua now wm mx).2.files =
        incrementDownloadCount st.files fileId) ∧
    (∀ (files : List EncryptedFile) (fileId : String) (g : EncryptedFile),
      g ∈ incrementDownloadCount files fileId →
      ∃ f ∈ files, g = f ∨ (f.id = fileId ∧
        g = { f with downloadCount := f.downloadCount + 1 })) ∧
    (∀ (files : List EncryptedFile) (fileId : String) (f : EncryptedFile), f ∈ files →
      (f.id ≠ fileId → f ∈ incrementDownloadCount files fileId) ∧
      (f.id = fileId → { f with downloadCount := f.downloadCount + 1 } ∈
        incrementDownloadCount files fileId)) ∧
    (∀ (st : ServerState) (fileId ip ua : String) (now wm mx : Nat),
      (∀ resp, (blobRoute st fileId ip ua now wm mx).1 ≠ BlobResult.ok resp) →
      (blobRoute st fileId ip ua now wm mx).2.files = st.files) ∧
    (∀ (st : ServerState) (fileId ip ua : String) (now : Nat),
      (metadataRoute st fileId ip ua now).2.files = st.files) ∧
    (∀ (st : ServerState) (user : Option String) (now : Nat),
      (listRoute st user now).2 = st) ∧
    (∀ (st : ServerState) (user : Option String) (fileId : String),
      (deleteRoute st user fileId).2.files.Sublist st.files) ∧
    (∀ (files : List EncryptedFile) (disk : List (String × List Nat)) (now : Nat),
      ((cleanupExpiredFiles files disk now).1).Sublist files) := by
  refine ⟨?_, ?_, incrementDownloadCount_mem, incrementDownloadCount_of_mem,
    blobRoute_fail_files, metadataRoute_files, listRoute_state,
    deleteRoute_files_sublist, cleanup_files_sublist⟩
  · intro st u content iv fn mt expiresIn fileId ip ua now wm mx hrl hiv hfn hmt hfresh
    rw [uploadRoute_success st u content iv fn mt expiresIn fileId ip ua now wm mx hrl
      hiv hfn hmt hfresh]
    exact ⟨_, rfl, rfl⟩
  · intro st fileId ip ua now wm mx f content hallow hvalid hfind hexp hdisk
    rw [blobRoute_ok_eq st fileId ip ua now wm mx f content hallow hvalid hfind hexp hdisk]

/-- Witness for C9: a concrete successful download increments exactly the
matching record's counter. -/
theorem downloadCount_lifecycle_witness :
    (blobRoute stW uuidW "ip" "ua" 999 900000 100).2.files =
      incrementDownloadCount stW.files uuidW :=
  downloadCount_lifecycle.2.1 stW uuidW "ip" "ua" 999 900000 100 fileW [9]
    (by decide) (by decide) (by decide) (by decide) (by decide)

/-- C1: the upload request body carries only the ciphertext, iv, filename,
mimetype and filesize fields — never the key.  Two runs that differ only
in the key but produce the same ciphertext send identical bodies and
receive identical responses from the upload, metadata and blob endpoints
(the server's entire view is key-independent); the share link is the
server-visible part followed by `#` and the base64url-encoded key, and a
base64url string never contains `#`, so the key sits entirely in the URL
fragment, which browsers do not transmit. -/
theorem key_only_in_fragment
    (encryptFn : List Nat → List Nat → List Nat → List Nat)
    (k1 k2 iv fileData : List Nat) (name ftype origin fileId ownerId ip ua : String)
    (st : ServerState) (now now2 windowMs mx : Nat)
    (h : encryptFn k1 iv fileData = encryptFn k2 iv fileData) :
    (clientUpload encryptFn k1 iv fileData name ftype origin fileId).1 =
      (clientUpload encryptFn k2 iv fileData name ftype origin fileId).1 ∧
    (∀ k : List Nat, (clientUpload encryptFn k iv fileData name ftype origin fileId).2 =
      (origin ++ "/file/" ++ fileId ++ "#") ++ toBase64Url k) ∧
    (∀ k : List Nat, ∀ c ∈ (toBase64Url k).toList, c ≠ '#') ∧
    serverUploadAndRead (clientUpload encryptFn k1 iv fileData name ftype origin fileId).1
        ownerId fileId ip ua st now now2 windowMs mx =
      serverUploadAndRead (clientUpload encryptFn k2 iv fileData name ftype origin fileId).1
        ownerId fileId ip ua st now now2 windowMs mx := by
  have hbody : (clientUpload encryptFn k1 iv fileData name ftype origin fileId).1 =
      (clientUpload encryptFn k2 iv fileData name ftype origin fileId).1 := by
    unfold clientUpload
    simp only [h]
  refine ⟨hbody, fun k => rfl, ?_, by rw [hbody]⟩
  intro k c hc
  rw [show (toBase64Url k).toList =
    ((btoaChars k).map urlEncChar).filter (fun c => !(c == '=')) from rfl] at hc
  obtain ⟨hc1, hc2⟩ := List.mem_filter.mp hc
  obtain ⟨c0, hc0, rfl⟩ := List.mem_map.mp hc1
  rcases btoaChars_chars k c0 hc0 with hmem | rfl
  · exact (urlEnc_alphabet_ne c0 hmem).2.2.2
  · simp [urlEncChar] at hc2

/-- Witness for C1: two distinct keys, one ciphertext, identical bodies. -/
theorem key_only_in_fragment_witness :
    (clientUpload (fun _ _ d => d) [1] [7] [5] "a" "b" "o" "f").1 =
      (clientUpload (fun _ _ d => d) [2] [7] [5] "a" "b" "o" "f").1 :=
  (key_only_in_fragment (fun _ _ d => d) [1] [2] [7] [5] "a" "b" "o" "f" "u" "ip" "ua"
    (ServerState.mk [] [] [] [] []) 0 1 900000 100 rfl).1
